import Mathlib

/-!
Verification of the burn-in text layout and metadata engine of the
`blender-playblast` add-on.  The Python modules `playblast/text.py`,
`playblast/render.py`, `playblast/metadata.py`, `playblast/handlers.py` and
`playblast/operators.py` are shallowly embedded below: pixel quantities are
rationals (Python floats idealised as exact rationals), Python `int(...)`
truncation and `//` floor division are modelled explicitly, Blender scene
state is an explicit record, and fallible template substitution returns
`Except`.
-/

namespace Playblast

/-- Python `//` floor division on rationals (`float.__floordiv__` values). -/
def pyfloor (q : ℚ) : ℤ := q.num / q.den

/-- Python `int(...)`: truncation toward zero. -/
def pyint (q : ℚ) : ℤ := if 0 ≤ q then pyfloor q else -(pyfloor (-q))

/-- Python `//` floor division on integers. -/
def pyidiv (a b : ℤ) : ℤ := Int.fdiv a b

theorem pyfloor_eq (q : ℚ) : pyfloor q = ⌊q⌋ := Rat.floor_def.symm

theorem pyint_of_nonneg (q : ℚ) (h : 0 ≤ q) : pyint q = ⌊q⌋ := by
  simp [pyint, h, pyfloor_eq]

theorem pyint_of_neg (q : ℚ) (h : ¬ 0 ≤ q) : pyint q = ⌈q⌉ := by
  simp [pyint, h, pyfloor_eq, Int.floor_neg]

theorem pyfloor_eval (q : ℚ) (n : ℤ) (h1 : (n:ℚ) ≤ q) (h2 : q < n + 1) : pyfloor q = n := by
  rw [pyfloor_eq]
  exact Int.floor_eq_iff.mpr ⟨h1, h2⟩

theorem pyint_eval_nonneg (q : ℚ) (n : ℤ) (h0 : 0 ≤ q) (h1 : (n:ℚ) ≤ q) (h2 : q < n + 1) :
    pyint q = n := by
  rw [pyint_of_nonneg q h0]
  exact Int.floor_eq_iff.mpr ⟨h1, h2⟩

/-- `pyint` never moves a value by a full unit. -/
theorem pyint_close (q : ℚ) : |((pyint q : ℤ) : ℚ) - q| < 1 := by
  by_cases h : 0 ≤ q
  · rw [pyint_of_nonneg q h, abs_sub_lt_iff]
    refine ⟨by have := Int.floor_le q; linarith, by have := Int.lt_floor_add_one q; linarith⟩
  · rw [pyint_of_neg q h, abs_sub_lt_iff]
    refine ⟨by have := Int.ceil_lt_add_one q; linarith, by have := Int.le_ceil q; linarith⟩

/-- `pyint` is exact on integral values. -/
theorem pyint_intCast (n : ℤ) : pyint (n : ℚ) = n := by
  by_cases h : 0 ≤ (n : ℚ)
  · rw [pyint_of_nonneg _ h, Int.floor_intCast]
  · rw [pyint_of_neg _ h, Int.ceil_intCast]

/-- Integer `//` agrees with the rational floor of the true quotient. -/
theorem pyidiv_two_eq (n : ℤ) : pyidiv n 2 = pyfloor ((n : ℚ) / 2) := by
  rw [pyfloor_eq]
  have h2 : ((2 : ℚ)) = ((2 : ℕ) : ℚ) := by norm_num
  rw [h2, Rat.floor_intCast_div_natCast, pyidiv, Int.fdiv_eq_ediv _ (by norm_num)]
  norm_num

/-- `text.py` / `render.py` `Rect`: a rectangle whose `x, y` is the
bottom-left corner (Blender viewport convention). -/
structure Rect where
  x : ℚ
  y : ℚ
  width : ℚ
  height : ℚ
deriving DecidableEq

def Rect.top_left (r : Rect) : ℚ × ℚ := (r.x, r.y + r.height)

def Rect.top_center (r : Rect) : ℚ × ℚ := (r.x + (pyfloor (r.width / 2) : ℚ), r.y + r.height)

def Rect.top_right (r : Rect) : ℚ × ℚ := (r.x + r.width, r.y + r.height)

def Rect.bottom_left (r : Rect) : ℚ × ℚ := (r.x, r.y)

def Rect.bottom_center (r : Rect) : ℚ × ℚ := (r.x + (pyfloor (r.width / 2) : ℚ), r.y)

def Rect.bottom_right (r : Rect) : ℚ × ℚ := (r.x + r.width, r.y)

/-- `Rect.scale`: each field is multiplied by the factor and truncated
with Python `int(...)`. -/
def Rect.scale (r : Rect) (factor : ℚ) : Rect :=
  { x := (pyint (r.x * factor) : ℤ)
    y := (pyint (r.y * factor) : ℤ)
    width := (pyint (r.width * factor) : ℤ)
    height := (pyint (r.height * factor) : ℤ) }

/-- `Rect.move`: offsets are truncated with Python `int(...)` then added. -/
def Rect.move (r : Rect) (dx dy : ℚ) : Rect :=
  { r with x := r.x + (pyint dx : ℤ), y := r.y + (pyint dy : ℤ) }

/-- The six burn-in anchor positions. -/
inductive CornerPos
  | top_left
  | top_center
  | top_right
  | bottom_left
  | bottom_center
  | bottom_right
deriving DecidableEq

/-- The iteration order used by `iter_corner_text` and `build_subtitles`. -/
def CornerPos.all : List CornerPos :=
  [.top_left, .top_center, .top_right, .bottom_left, .bottom_center, .bottom_right]

/-- The placement arithmetic of `text.py` `Text.__init__`: the draw target is
the full render frame `(0, 0, res_x, res_y)`, `w`/`h` are the measured text
dimensions, and the result is the text rectangle in bottom-left-origin pixels. -/
def textPlace (res_x res_y margin : ℤ) (w h : ℚ) : CornerPos → Rect
  | .top_left => ⟨(margin : ℚ), (res_y : ℚ) - h - (margin : ℚ), w, h⟩
  | .top_center => ⟨((pyidiv res_x 2 - pyfloor (w / 2) : ℤ) : ℚ), (res_y : ℚ) - h - (margin : ℚ), w, h⟩
  | .top_right => ⟨(res_x : ℚ) - w - (margin : ℚ), (res_y : ℚ) - h - (margin : ℚ), w, h⟩
  | .bottom_left => ⟨(margin : ℚ), (margin : ℚ), w, h⟩
  | .bottom_center => ⟨((pyidiv res_x 2 - pyfloor (w / 2) : ℤ) : ℚ), (margin : ℚ), w, h⟩
  | .bottom_right => ⟨(res_x : ℚ) - w - (margin : ℚ), (margin : ℚ), w, h⟩

/-- `render.py` `get_text_location`: bottom-left corner at which to draw a
text of rectangle `text_rect` inside `draw_rect`. -/
def get_text_location (draw_rect text_rect : Rect) (margin : ℚ) : CornerPos → ℚ × ℚ
  | .top_left =>
      let p := draw_rect.top_left
      (p.1 + margin, p.2 - text_rect.height - margin)
  | .top_center =>
      let p := draw_rect.top_center
      (p.1 - (pyfloor (text_rect.width / 2) : ℚ), p.2 - text_rect.height - margin)
  | .top_right =>
      let p := draw_rect.top_right
      (p.1 - text_rect.width - margin, p.2 - text_rect.height - margin)
  | .bottom_left =>
      let p := draw_rect.bottom_left
      (p.1 + margin, p.2 + margin)
  | .bottom_center =>
      let p := draw_rect.bottom_center
      (p.1 - (pyfloor (text_rect.width / 2) : ℚ), p.2 + margin)
  | .bottom_right =>
      let p := draw_rect.bottom_right
      (p.1 - text_rect.width - margin, p.2 + margin)

/-- The rectangle a text of size `w × h` occupies after `_draw_burn_in_text`
draws it at `get_text_location draw_rect (Rect 0 0 w h) margin pos`. -/
def placedTextRect (draw_rect : Rect) (w h margin : ℚ) (pos : CornerPos) : Rect :=
  let p := get_text_location draw_rect ⟨0, 0, w, h⟩ margin pos
  ⟨p.1, p.2, w, h⟩

/-- The full render frame as a bottom-left-origin rectangle. -/
def renderRect (res_x res_y : ℤ) : Rect := ⟨0, 0, (res_x : ℚ), (res_y : ℚ)⟩

/-- The `vars` table of `PLAYBLAST_OT_run.build_subtitles`: for each position,
its fixed ASS alignment code and the `\pos` pixel anchor in top-left-origin
subtitle coordinates. -/
def subtitleVars (res_x res_y margin : ℤ) : CornerPos → String × ℤ × ℤ
  | .top_left => ("7", margin, margin)
  | .top_center => ("8", pyidiv res_x 2, margin)
  | .top_right => ("9", res_x - margin, margin)
  | .bottom_left => ("1", margin, res_y - margin)
  | .bottom_center => ("2", pyidiv res_x 2, res_y - margin)
  | .bottom_right => ("3", res_x - margin, res_y - margin)

/-- C1: for all six anchor positions and both origin conventions
(bottom-left-origin viewport/render space via `get_text_location` and the
`text.py` placement, top-left-origin subtitle space via the `build_subtitles`
table), the placed text rectangle has its visual corner exactly `margin`
pixels inset from the corresponding corner of the draw rectangle, and the
center positions sit on the draw rectangle's (floored) horizontal midpoint,
for every draw rectangle, text size and margin. -/
theorem C1_corner_placement_margin_inset :
    (∀ (dr : Rect) (w h margin : ℚ),
      (placedTextRect dr w h margin .top_left).top_left
          = (dr.top_left.1 + margin, dr.top_left.2 - margin) ∧
      (placedTextRect dr w h margin .top_center).top_center
          = (dr.top_center.1, dr.top_center.2 - margin) ∧
      (placedTextRect dr w h margin .top_right).top_right
          = (dr.top_right.1 - margin, dr.top_right.2 - margin) ∧
      (placedTextRect dr w h margin .bottom_left).bottom_left
          = (dr.bottom_left.1 + margin, dr.bottom_left.2 + margin) ∧
      (placedTextRect dr w h margin .bottom_center).bottom_center
          = (dr.bottom_center.1, dr.bottom_center.2 + margin) ∧
      (placedTextRect dr w h margin .bottom_right).bottom_right
          = (dr.bottom_right.1 - margin, dr.bottom_right.2 + margin)) ∧
    (∀ (res_x res_y margin : ℤ) (w h : ℚ),
      (textPlace res_x res_y margin w h .top_left).top_left
          = ((renderRect res_x res_y).top_left.1 + (margin : ℚ),
             (renderRect res_x res_y).top_left.2 - (margin : ℚ)) ∧
      (textPlace res_x res_y margin w h .top_center).top_center
          = ((renderRect res_x res_y).top_center.1,
             (renderRect res_x res_y).top_center.2 - (margin : ℚ)) ∧
      (textPlace res_x res_y margin w h .top_right).top_right
          = ((renderRect res_x res_y).top_right.1 - (margin : ℚ),
             (renderRect res_x res_y).top_right.2 - (margin : ℚ)) ∧
      (textPlace res_x res_y margin w h .bottom_left).bottom_left
          = ((renderRect res_x res_y).bottom_left.1 + (margin : ℚ),
             (renderRect res_x res_y).bottom_left.2 + (margin : ℚ)) ∧
      (textPlace res_x res_y margin w h .bottom_center).bottom_center
          = ((renderRect res_x res_y).bottom_center.1,
             (renderRect res_x res_y).bottom_center.2 + (margin : ℚ)) ∧
      (textPlace res_x res_y margin w h .bottom_right).bottom_right
          = ((renderRect res_x res_y).bottom_right.1 - (margin : ℚ),
             (renderRect res_x res_y).bottom_right.2 + (margin : ℚ))) ∧
    (∀ (res_x res_y margin : ℤ),
      subtitleVars res_x res_y margin .top_left = ("7", 0 + margin, 0 + margin) ∧
      subtitleVars res_x res_y margin .top_center = ("8", pyidiv res_x 2, 0 + margin) ∧
      subtitleVars res_x res_y margin .top_right = ("9", res_x - margin, 0 + margin) ∧
      subtitleVars res_x res_y margin .bottom_left = ("1", 0 + margin, res_y - margin) ∧
      subtitleVars res_x res_y margin .bottom_center = ("2", pyidiv res_x 2, res_y - margin) ∧
      subtitleVars res_x res_y margin .bottom_right = ("3", res_x - margin, res_y - margin)) := by
  refine ⟨fun dr w h margin => ?_, fun res_x res_y margin w h => ?_, fun res_x res_y margin => ?_⟩
  · refine ⟨?_, ?_, ?_, ?_, ?_, ?_⟩ <;>
      simp only [placedTextRect, get_text_location, Rect.top_left, Rect.top_center,
        Rect.top_right, Rect.bottom_left, Rect.bottom_center, Rect.bottom_right,
        Prod.ext_iff] <;> constructor <;> ring
  · refine ⟨?_, ?_, ?_, ?_, ?_, ?_⟩ <;>
      simp only [textPlace, renderRect, Rect.top_left, Rect.top_center, Rect.top_right,
        Rect.bottom_left, Rect.bottom_center, Rect.bottom_right, Prod.ext_iff,
        pyidiv_two_eq] <;> constructor <;> push_cast <;> ring
  · exact ⟨by simp [subtitleVars], by simp [subtitleVars], by simp [subtitleVars],
      by simp [subtitleVars], by simp [subtitleVars], by simp [subtitleVars]⟩

/-- `text.py` `Text`: a placed text block. -/
structure Text where
  text : String
  position : CornerPos
  font_size : ℤ
  rect : Rect
deriving DecidableEq

/-- `Text.scale`: scales the rectangle and the font size. -/
def Text.scale (t : Text) (factor : ℚ) : Text :=
  { t with rect := t.rect.scale factor, font_size := pyint ((t.font_size : ℚ) * factor) }

/-- `Text.move`. -/
def Text.move (t : Text) (dx dy : ℚ) : Text := { t with rect := t.rect.move dx dy }

def CornerPos.isCenter : CornerPos → Bool
  | .top_center => true
  | .bottom_center => true
  | _ => false

theorem pyint_close_to (a b : ℚ) (h : a = b) : |((pyint a : ℤ) : ℚ) - b| ≤ 1 :=
  h ▸ le_of_lt (pyint_close a)

/-- C2 (amended): placement commutes with uniform scaling by any positive
factor whose pre-scaled draw rectangle and margin are integral: width,
height and the vertical coordinate agree within 1 pixel for all six
positions, and the horizontal coordinate agrees within 1 pixel for the four
corner positions; only the center positions' floored-midpoint horizontal
coordinate is exempt, and can deviate by more than one pixel. -/
theorem C2_scale_commutes_amended (res_x res_y margin : ℤ) (w h : ℚ) (k : ℚ)
    (hk : 0 < k) (rx2 ry2 m2 : ℤ)
    (hrx : (rx2 : ℚ) = k * (res_x : ℚ)) (hry : (ry2 : ℚ) = k * (res_y : ℚ))
    (hm : (m2 : ℚ) = k * (margin : ℚ)) (pos : CornerPos) :
    (|((textPlace res_x res_y margin w h pos).scale k).width
        - (textPlace rx2 ry2 m2 (k * w) (k * h) pos).width| ≤ 1 ∧
     |((textPlace res_x res_y margin w h pos).scale k).height
        - (textPlace rx2 ry2 m2 (k * w) (k * h) pos).height| ≤ 1 ∧
     |((textPlace res_x res_y margin w h pos).scale k).y
        - (textPlace rx2 ry2 m2 (k * w) (k * h) pos).y| ≤ 1) ∧
    (pos.isCenter = false →
      |((textPlace res_x res_y margin w h pos).scale k).x
        - (textPlace rx2 ry2 m2 (k * w) (k * h) pos).x| ≤ 1) := by
  cases pos
  case top_left =>
    simp only [textPlace, Rect.scale, CornerPos.isCenter]
    exact ⟨⟨pyint_close_to _ _ (by ring), pyint_close_to _ _ (by ring),
      pyint_close_to _ _ (by rw [hry, hm]; ring)⟩,
      fun _ => pyint_close_to _ _ (by rw [hm]; ring)⟩
  case top_center =>
    simp only [textPlace, Rect.scale, CornerPos.isCenter]
    exact ⟨⟨pyint_close_to _ _ (by ring), pyint_close_to _ _ (by ring),
      pyint_close_to _ _ (by rw [hry, hm]; ring)⟩,
      fun hfalse => absurd hfalse (by decide)⟩
  case top_right =>
    simp only [textPlace, Rect.scale, CornerPos.isCenter]
    exact ⟨⟨pyint_close_to _ _ (by ring), pyint_close_to _ _ (by ring),
      pyint_close_to _ _ (by rw [hry, hm]; ring)⟩,
      fun _ => pyint_close_to _ _ (by rw [hrx, hm]; ring)⟩
  case bottom_left =>
    simp only [textPlace, Rect.scale, CornerPos.isCenter]
    exact ⟨⟨pyint_close_to _ _ (by ring), pyint_close_to _ _ (by ring),
      pyint_close_to _ _ (by rw [hm]; ring)⟩,
      fun _ => pyint_close_to _ _ (by rw [hm]; ring)⟩
  case bottom_center =>
    simp only [textPlace, Rect.scale, CornerPos.isCenter]
    exact ⟨⟨pyint_close_to _ _ (by ring), pyint_close_to _ _ (by ring),
      pyint_close_to _ _ (by rw [hm]; ring)⟩,
      fun hfalse => absurd hfalse (by decide)⟩
  case bottom_right =>
    simp only [textPlace, Rect.scale, CornerPos.isCenter]
    exact ⟨⟨pyint_close_to _ _ (by ring), pyint_close_to _ _ (by ring),
      pyint_close_to _ _ (by rw [hm]; ring)⟩,
      fun _ => pyint_close_to _ _ (by rw [hrx, hm]; ring)⟩

/-- C2 counterexample: with factor `k = 4`, a `top_center` block placed in a
`3 × 100` frame and then scaled lands 2 pixels away from the block placed
directly in the pre-scaled `12 × 400` frame, exceeding the claimed 1-pixel
tolerance. -/
theorem C2_scale_commutes_counterexample :
    ((textPlace 3 100 0 2 1 CornerPos.top_center).scale 4).x = 0 ∧
    (textPlace 12 400 0 8 4 CornerPos.top_center).x = 2 ∧
    ¬ (|((textPlace 3 100 0 2 1 CornerPos.top_center).scale 4).x
        - (textPlace 12 400 0 8 4 CornerPos.top_center).x| ≤ 1) := by
  have h1 : pyidiv 3 2 = 1 := by decide
  have h2 : pyfloor ((2 : ℚ) / 2) = 1 := pyfloor_eval _ 1 (by norm_num) (by norm_num)
  have h3 : pyidiv 12 2 = 6 := by decide
  have h4 : pyfloor ((8 : ℚ) / 2) = 4 := pyfloor_eval _ 4 (by norm_num) (by norm_num)
  have h5 : pyint ((((1 - 1 : ℤ) : ℚ)) * 4) = 0 :=
    pyint_eval_nonneg _ 0 (by norm_num) (by norm_num) (by norm_num)
  refine ⟨?_, ?_, ?_⟩
  · simp only [textPlace, Rect.scale, h1, h2, h5]
    norm_num
  · simp only [textPlace, h3, h4]
    norm_num
  · simp only [textPlace, Rect.scale, h1, h2, h3, h4, h5]
    norm_num

/-- C2 witness: the amended commutation theorem applied at a concrete
fractional factor. -/
theorem C2_scale_commutes_witness :
    (0 : ℚ) < 1 / 2 ∧
    ((960 : ℤ) : ℚ) = (1 / 2 : ℚ) * ((1920 : ℤ) : ℚ) ∧
    CornerPos.isCenter CornerPos.top_right = false ∧
    (|((textPlace 1920 1080 10 100 40 CornerPos.top_right).scale (1 / 2)).x
      - (textPlace 960 540 5 ((1 / 2 : ℚ) * 100) ((1 / 2 : ℚ) * 40) CornerPos.top_right).x|
        ≤ 1) :=
  ⟨by norm_num, by norm_num, by rfl,
    (C2_scale_commutes_amended 1920 1080 10 100 40 (1 / 2) (by norm_num) 960 540 5
        (by norm_num) (by norm_num) (by norm_num) CornerPos.top_right).2 (by rfl)⟩

/-- One element of a Python format template: literal text or a `\x7bfield\x7d`
placeholder. -/
inductive TItem
  | lit (s : String)
  | field (name : String)
deriving DecidableEq

/-- A user template string, structured into literals and placeholders. -/
abbrev Template := List TItem

/-- The raw (unsubstituted) template string. -/
def Template.raw : Template → String
  | [] => ""
  | TItem.lit s :: rest => s ++ Template.raw rest
  | TItem.field n :: rest => "\x7b" ++ n ++ "\x7d" ++ Template.raw rest

/-- Python `s.strip()` is falsy exactly when every character is whitespace. -/
def pyblank (s : String) : Bool := s.data.all Char.isWhitespace

/-- The `iter_corner_text` skip test: `not text_template.strip()`. -/
def Template.blank (t : Template) : Bool := pyblank (Template.raw t)

/-- The metadata dict of `metadata.py`, an association list; `get_metadata`
wraps it in `defaultdict(str)`. -/
abbrev MetaDict := List (String × String)

/-- `defaultdict(str)` lookup: a missing key yields the empty string. -/
def ddGet (d : MetaDict) (k : String) : String := ((d.lookup k).getD "")

/-- `str.format_map` over the `defaultdict(str)` metadata: total. -/
def formatMapDD (d : MetaDict) : Template → String
  | [] => ""
  | TItem.lit s :: rest => s ++ formatMapDD d rest
  | TItem.field n :: rest => ddGet d n ++ formatMapDD d rest

/-- `str.format_map` over a plain mapping: substitution of a missing key
raises `KeyError`, modelled as `Except.error` carrying the key. -/
def formatMapP (lk : String → Option String) : Template → Except String String
  | [] => Except.ok ""
  | TItem.lit s :: rest => (formatMapP lk rest).map fun r => s ++ r
  | TItem.field n :: rest =>
      match lk n with
      | some v => (formatMapP lk rest).map fun r => v ++ r
      | none => Except.error n

/-- A Blender object that may serve as `scene.camera`. -/
structure CameraObj where
  name : String
  objType : String
  lensStr : String
deriving DecidableEq

/-- The scene/render/add-on state read by `get_metadata`. -/
structure SceneState where
  resolution_x : ℕ
  resolution_y : ℕ
  fps : ℤ
  frame_current : ℤ
  frame_start : ℤ
  frame_end : ℤ
  use_preview_range : Bool
  frame_preview_start : ℤ
  frame_preview_end : ℤ
  camera : Option CameraObj
  file_name : String
  file_version_str : String
  file_extension : String
  file_full_name : String
  override_scale : ℕ
  override_use_frame_range : Bool
  override_frame_start : ℤ
  override_frame_end : ℤ
  now : String
deriving DecidableEq

/-- `metadata.py` resolution override: `int(res * scale / 100)` followed by
`res += res % 2`. -/
def evenScaled (base scale : ℕ) : ℕ :=
  let t := base * scale / 100
  t + t % 2

/-- `metadata.py` `get_metadata`: the thirteen-field snapshot, in source
order, wrapped by the caller in `defaultdict(str)` (see `ddGet`). -/
def getMetadata (st : SceneState) (is_rendering : Bool) : MetaDict :=
  let res_x := if is_rendering then st.resolution_x else evenScaled st.resolution_x st.override_scale
  let res_y := if is_rendering then st.resolution_y else evenScaled st.resolution_y st.override_scale
  let fr_start := if st.override_use_frame_range then st.override_frame_start else st.frame_start
  let fr_end := if st.override_use_frame_range then st.override_frame_end else st.frame_end
  let cam_name := match st.camera with
    | some c => if c.objType = "CAMERA" then c.name else ""
    | none => ""
  let cam_focal := match st.camera with
    | some c => if c.objType = "CAMERA" then c.lensStr else ""
    | none => ""
  [("datetime", st.now),
   ("width", toString res_x),
   ("height", toString res_y),
   ("file_name", st.file_name),
   ("file_version", st.file_version_str),
   ("file_ext", st.file_extension),
   ("file_full_name", st.file_full_name),
   ("frame_current", toString st.frame_current),
   ("frame_start", toString fr_start),
   ("frame_end", toString fr_end),
   ("frame_rate", toString st.fps),
   ("camera_name", cam_name),
   ("camera_focal", cam_focal)]

/-- The thirteen defined metadata field names. -/
def metaKeys : List String :=
  ["datetime", "width", "height", "file_name", "file_version", "file_ext", "file_full_name",
   "frame_current", "frame_start", "frame_end", "frame_rate", "camera_name", "camera_focal"]

def setFrame (st : SceneState) (f : ℤ) : SceneState := { st with frame_current := f }

def setPreview (st : SceneState) (b : Bool) (ps pe : ℤ) : SceneState :=
  { st with use_preview_range := b, frame_preview_start := ps, frame_preview_end := pe }

/-- Dict assignment `d[k] = v` for a key already present. -/
def setKey (d : MetaDict) (k v : String) : MetaDict :=
  d.map fun kv => if kv.1 = k then (k, v) else kv

/-- The frames visited by `bpy.ops.render.opengl(animation=True)`:
`a, a+1, ..., b`. -/
def frameRange (a b : ℤ) : List ℤ :=
  (List.range (b + 1 - a).toNat).map fun (i : ℕ) => a + (i : ℤ)

/-- `register_collect_metadata_handler`: one `get_metadata(..., is_rendering=True)`
snapshot per visited frame, keyed by the frame number. -/
def collectMetadata (st : SceneState) (a b : ℤ) : List (ℤ × MetaDict) :=
  (frameRange a b).map fun f => (f, getMetadata (setFrame st f) true)

/-- `PLAYBLAST_OT_run.execute` lines 161-164: overwrite every collected
snapshot's `datetime` with a single value captured once. -/
def pinDatetime (t : String) (l : List (ℤ × MetaDict)) : List (ℤ × MetaDict) :=
  l.map fun p => (p.1, setKey p.2 "datetime" t)

/-- A representative scene state used to instantiate universally
quantified theorems. -/
def sampleState : SceneState :=
  { resolution_x := 1920, resolution_y := 1080, fps := 24, frame_current := 1,
    frame_start := 1, frame_end := 250, use_preview_range := false,
    frame_preview_start := 1, frame_preview_end := 250,
    camera := some ⟨"Camera", "CAMERA", "50.00"⟩,
    file_name := "playblast", file_version_str := "v001", file_extension := ".mp4",
    file_full_name := "playblast.v001.mp4", override_scale := 50,
    override_use_frame_range := false, override_frame_start := 1, override_frame_end := 250,
    now := "2026-10-12 00:00:00" }

/-- `sampleState` with the 33 % resolution scale of the spec's example. -/
def scale33State : SceneState := { sampleState with override_scale := 33 }

/-- C3 counterexample: at scale 33 % of 1920 x 1080 the snapshot height is
356, not the 358 the claim derives by rounding 356.4 up to the next even
integer; the code truncates to 356 first, which is already even. -/
theorem C3_even_rounding_counterexample :
    ddGet (getMetadata scale33State false) "width" = "634" ∧
    ddGet (getMetadata scale33State false) "height" = "356" ∧
    ("356" : String) ≠ "358" := by
  refine ⟨by rfl, by rfl, by decide⟩

/-- C3 (amended): outside a render pass the snapshot dimensions are the
truncation of `base * scale / 100` rounded up to the next even integer only
when odd, i.e. the least even integer at or above the truncated value; at
scale 33 % of 1920 x 1080 this gives 634 x 356. -/
theorem C3_even_rounding_amended :
    (∀ base scale : ℕ,
      Even (evenScaled base scale) ∧
      base * scale / 100 ≤ evenScaled base scale ∧
      (∀ m : ℕ, Even m → base * scale / 100 ≤ m → evenScaled base scale ≤ m)) ∧
    ddGet (getMetadata scale33State false) "width" = toString (evenScaled 1920 33) ∧
    ddGet (getMetadata scale33State false) "height" = toString (evenScaled 1080 33) ∧
    evenScaled 1920 33 = 634 ∧ evenScaled 1080 33 = 356 := by
  have ht : ∀ t : ℕ, Even (t + t % 2) ∧ t ≤ t + t % 2 ∧
      (∀ m : ℕ, Even m → t ≤ m → t + t % 2 ≤ m) := by
    intro t
    refine ⟨?_, by omega, fun m hm hle => ?_⟩
    · rw [Nat.even_iff]
      omega
    · rw [Nat.even_iff] at hm
      omega
  refine ⟨fun base scale => ?_, by rfl, by rfl, by decide, by decide⟩
  simpa [evenScaled] using ht (base * scale / 100)

/-- C3 witness for the amended theorem's minimality clause at 634. -/
theorem C3_even_rounding_witness :
    Even 634 ∧ 1920 * 33 / 100 ≤ 634 ∧ evenScaled 1920 33 ≤ 634 :=
  ⟨by decide, by decide,
    (C3_even_rounding_amended.1 1920 33).2.2 634 (by decide) (by decide)⟩

/-- C4: for every positive base resolution and scale percentage between 1
and 100, the non-rendering snapshot's width and height are even integers. -/
theorem C4_resolution_always_even (st : SceneState)
    (hx : 0 < st.resolution_x) (hy : 0 < st.resolution_y)
    (h1 : 1 ≤ st.override_scale) (h2 : st.override_scale ≤ 100) :
    ∃ w h : ℕ, ddGet (getMetadata st false) "width" = toString w ∧
      ddGet (getMetadata st false) "height" = toString h ∧ Even w ∧ Even h := by
  refine ⟨evenScaled st.resolution_x st.override_scale,
    evenScaled st.resolution_y st.override_scale, ?_, ?_, ?_, ?_⟩
  · rfl
  · rfl
  · simp only [evenScaled, Nat.even_iff]
    omega
  · simp only [evenScaled, Nat.even_iff]
    omega

/-- C4 witness at the sample state. -/
theorem C4_resolution_always_even_witness :
    0 < sampleState.resolution_x ∧ 0 < sampleState.resolution_y ∧
    1 ≤ sampleState.override_scale ∧ sampleState.override_scale ≤ 100 ∧
    (∃ w h : ℕ, ddGet (getMetadata sampleState false) "width" = toString w ∧
      ddGet (getMetadata sampleState false) "height" = toString h ∧ Even w ∧ Even h) :=
  ⟨by decide, by decide, by decide, by decide,
    C4_resolution_always_even sampleState (by decide) (by decide) (by decide) (by decide)⟩

/-- `sampleState` with an active preview range and no user override, the
configuration on which the claimed preview-range tier would have to fire. -/
def previewState : SceneState :=
  { sampleState with
    use_preview_range := true
    frame_preview_start := 5
    frame_preview_end := 10
    override_use_frame_range := false }

/-- C8 counterexample: with the preview range active (5..10) and the
override disabled, the snapshot's frame range fields are the scene's full
range 1..250, not the preview range the claim requires. -/
theorem C8_frame_range_counterexample :
    previewState.use_preview_range = true ∧
    previewState.frame_preview_start = 5 ∧
    previewState.frame_preview_end = 10 ∧
    previewState.override_use_frame_range = false ∧
    ddGet (getMetadata previewState false) "frame_start" = "1" ∧
    ddGet (getMetadata previewState false) "frame_end" = "250" ∧
    ("1" : String) ≠ "5" := by
  refine ⟨by decide, by decide, by decide, by decide, by rfl, by rfl, by decide⟩

/-- C8 (amended): the snapshot's frame range is the user override when the
override is enabled and otherwise the scene's full frame range; the scene's
preview range is never consulted by `get_metadata` (the export operator
separately folds the override into the scene's preview range). -/
theorem C8_frame_range_amended (st : SceneState) (r : Bool) :
    ddGet (getMetadata st r) "frame_start"
        = toString (if st.override_use_frame_range then st.override_frame_start
                    else st.frame_start) ∧
    ddGet (getMetadata st r) "frame_end"
        = toString (if st.override_use_frame_range then st.override_frame_end
                    else st.frame_end) ∧
    (∀ (b : Bool) (ps pe : ℤ), getMetadata (setPreview st b ps pe) r = getMetadata st r) := by
  refine ⟨by rfl, by rfl, fun b ps pe => by rfl⟩

/-- Over the `defaultdict` view of a metadata dict, keyed substitution never
fails and agrees with the total substitution. -/
theorem formatMapP_dd_ok (d : MetaDict) (t : Template) :
    formatMapP (fun n => some (ddGet d n)) t = Except.ok (formatMapDD d t) := by
  induction t with
  | nil => rfl
  | cons it rest ih =>
      cases it with
      | lit s => rw [formatMapP, formatMapDD, ih]; rfl
      | field n => rw [formatMapP, formatMapDD, ih]; rfl

theorem lookup_eq_none_of_not_mem_keys (d : MetaDict) (k : String)
    (h : ¬ k ∈ d.map Prod.fst) : d.lookup k = none := by
  induction d with
  | nil => rfl
  | cons p rest ih =>
      simp only [List.map_cons, List.mem_cons] at h
      push_neg at h
      rw [List.lookup]
      have hb : (k == p.1) = false := by
        simp [h.1]
      rw [hb]
      exact ih h.2

/-- C10: the snapshot maps every key outside its thirteen defined fields to
the empty string, so keyed substitution over the snapshot never raises: over
the `defaultdict` view `formatMapP` always succeeds and agrees with the
total substitution, and an unknown placeholder expands to the empty
string. -/
theorem C10_defaultdict_unknown_key (st : SceneState) (r : Bool) :
    (∀ k : String, ¬ k ∈ metaKeys → ddGet (getMetadata st r) k = "") ∧
    (∀ t : Template, formatMapP (fun n => some (ddGet (getMetadata st r) n)) t
        = Except.ok (formatMapDD (getMetadata st r) t)) ∧
    (∀ n : String, ¬ n ∈ metaKeys →
      formatMapDD (getMetadata st r) [TItem.field n] = "") := by
  have keys_eq : (getMetadata st r).map Prod.fst = metaKeys := by rfl
  have h1 : ∀ k : String, ¬ k ∈ metaKeys → ddGet (getMetadata st r) k = "" := by
    intro k hk
    rw [ddGet, lookup_eq_none_of_not_mem_keys _ _ (by rw [keys_eq]; exact hk)]
    rfl
  refine ⟨h1, formatMapP_dd_ok (getMetadata st r), fun n hn => ?_⟩
  rw [formatMapDD, formatMapDD, h1 n hn]
  rfl

/-- C10 witness: the unknown key `nonexistent` resolves to the empty string
at the sample state. -/
theorem C10_defaultdict_unknown_key_witness :
    ¬ "nonexistent" ∈ metaKeys ∧ ddGet (getMetadata sampleState false) "nonexistent" = "" :=
  ⟨by decide, (C10_defaultdict_unknown_key sampleState false).1 "nonexistent" (by decide)⟩

theorem pin_collect_eq (st : SceneState) (t : String) (a b : ℤ) :
    pinDatetime t (collectMetadata st a b)
      = (List.range (b + 1 - a).toNat).map
          (fun (i : ℕ) => (a + (i : ℤ),
            setKey (getMetadata (setFrame st (a + (i : ℤ))) true) "datetime" t)) := by
  rw [pinDatetime, collectMetadata, frameRange, List.map_map, List.map_map]
  rfl

theorem lookup_cons_ne {β : Type} (k pk : String) (pv : β) (l : List (String × β))
    (h : (k == pk) = false) : List.lookup k ((pk, pv) :: l) = List.lookup k l := by
  simp [List.lookup, h]

theorem lookup_cons_eq {β : Type} (k pk : String) (pv : β) (l : List (String × β))
    (h : (k == pk) = true) : List.lookup k ((pk, pv) :: l) = some pv := by
  simp [List.lookup, h]

theorem ddGet_setKey_datetime (st : SceneState) (r : Bool) (t : String) :
    ddGet (setKey (getMetadata st r) "datetime" t) "datetime" = t := rfl

theorem ddGet_setKey_frame_current (st : SceneState) (r : Bool) (t : String) :
    ddGet (setKey (getMetadata st r) "datetime" t) "frame_current"
      = toString st.frame_current := rfl

theorem ddGet_setKey_ne (d : MetaDict) (key v k : String) (h : ¬ k = key) :
    ddGet (setKey d key v) k = ddGet d k := by
  induction d with
  | nil => rfl
  | cons p rest ih =>
      obtain ⟨pk, pv⟩ := p
      simp only [setKey, List.map_cons]
      by_cases hp : pk = key
      · subst hp
        have hb : (k == pk) = false := beq_eq_false_iff_ne.mpr h
        rw [if_pos rfl]
        simp only [ddGet]
        rw [lookup_cons_ne k pk v _ hb, lookup_cons_ne k pk pv _ hb]
        exact ih
      · rw [if_neg hp]
        cases hb : (k == pk) with
        | true =>
            simp only [ddGet]
            rw [lookup_cons_eq k pk pv _ hb, lookup_cons_eq k pk pv _ hb]
        | false =>
            simp only [ddGet]
            rw [lookup_cons_ne k pk pv _ hb, lookup_cons_ne k pk pv _ hb]
            exact ih

/-- C7: over a single export spanning frames `a..b`, pinning the datetime
yields one snapshot per frame, every snapshot carries the identical pinned
`datetime`, the snapshots' `frame_current` runs `a, a+1, ...` (strictly
increasing by 1 between consecutive snapshots), and every field other than
`datetime` equals its freshly re-evaluated per-frame value. -/
theorem C7_pinned_datetime (st : SceneState) (t : String) (a b : ℤ) (hab : a ≤ b) :
    (pinDatetime t (collectMetadata st a b)).length = (b + 1 - a).toNat ∧
    (∀ x ∈ pinDatetime t (collectMetadata st a b), ddGet x.2 "datetime" = t) ∧
    (∀ (i : ℕ) (hi : i < (pinDatetime t (collectMetadata st a b)).length),
      ((pinDatetime t (collectMetadata st a b)).get ⟨i, hi⟩).1 = a + (i : ℤ) ∧
      ddGet ((pinDatetime t (collectMetadata st a b)).get ⟨i, hi⟩).2 "frame_current"
        = toString (a + (i : ℤ))) ∧
    (∀ (i : ℕ) (hi : i + 1 < (pinDatetime t (collectMetadata st a b)).length),
      ((pinDatetime t (collectMetadata st a b)).get ⟨i + 1, hi⟩).1
        = ((pinDatetime t (collectMetadata st a b)).get ⟨i, Nat.lt_of_succ_lt hi⟩).1 + 1) ∧
    (∀ x ∈ pinDatetime t (collectMetadata st a b), ∀ k : String, ¬ k = "datetime" →
      ddGet x.2 k = ddGet (getMetadata (setFrame st x.1) true) k) := by
  refine ⟨?_, ?_, ?_, ?_, ?_⟩
  · rw [pin_collect_eq]
    simp
  · intro x hx
    rw [pin_collect_eq] at hx
    simp only [List.mem_map, List.mem_range] at hx
    obtain ⟨i, hi, rfl⟩ := hx
    exact ddGet_setKey_datetime _ _ _
  · intro i hi
    have hg : (pinDatetime t (collectMetadata st a b)).get ⟨i, hi⟩
        = (a + (i : ℤ), setKey (getMetadata (setFrame st (a + (i : ℤ))) true) "datetime" t) := by
      have := pin_collect_eq st t a b
      rw [List.get_eq_getElem]
      simp only [this, List.getElem_map, List.getElem_range]
    rw [hg]
    exact ⟨rfl, ddGet_setKey_frame_current _ _ _⟩
  · intro i hi
    have h1 : (pinDatetime t (collectMetadata st a b)).get ⟨i + 1, hi⟩
        = (a + ((i + 1 : ℕ) : ℤ),
           setKey (getMetadata (setFrame st (a + ((i + 1 : ℕ) : ℤ))) true) "datetime" t) := by
      have := pin_collect_eq st t a b
      rw [List.get_eq_getElem]
      simp only [this, List.getElem_map, List.getElem_range]
    have h2 : (pinDatetime t (collectMetadata st a b)).get ⟨i, Nat.lt_of_succ_lt hi⟩
        = (a + (i : ℤ),
           setKey (getMetadata (setFrame st (a + (i : ℤ))) true) "datetime" t) := by
      have := pin_collect_eq st t a b
      rw [List.get_eq_getElem]
      simp only [this, List.getElem_map, List.getElem_range]
    rw [h1, h2]
    push_cast
    ring
  · intro x hx k hk
    rw [pin_collect_eq] at hx
    simp only [List.mem_map, List.mem_range] at hx
    obtain ⟨i, hi, rfl⟩ := hx
    exact ddGet_setKey_ne _ "datetime" t k hk

/-- C7 witness: a concrete ten-frame export at the sample state. -/
theorem C7_pinned_datetime_witness :
    (1 : ℤ) ≤ 10 ∧
    (pinDatetime "2026-10-12 00:00:00" (collectMetadata sampleState 1 10)).length = 10 :=
  ⟨by norm_num, by
    rw [(C7_pinned_datetime sampleState "2026-10-12 00:00:00" 1 10 (by norm_num)).1]
    rfl⟩

/-- The six user templates of `BurnInProperties`, keyed by position. -/
structure TemplateSet where
  top_left : Template
  top_center : Template
  top_right : Template
  bottom_left : Template
  bottom_center : Template
  bottom_right : Template
deriving DecidableEq

def TemplateSet.get (ts : TemplateSet) : CornerPos → Template
  | .top_left => ts.top_left
  | .top_center => ts.top_center
  | .top_right => ts.top_right
  | .bottom_left => ts.bottom_left
  | .bottom_center => ts.bottom_center
  | .bottom_right => ts.bottom_right

/-- `Text.__init__`: measure the resolved text (`measure` models
`blf.dimensions` at the configured font) and place it at full render
resolution. -/
def mkText (res_x res_y font_size margin : ℤ) (measure : String → ℚ × ℚ)
    (s : String) (pos : CornerPos) : Text :=
  { text := s, position := pos, font_size := font_size,
    rect := textPlace res_x res_y margin (measure s).1 (measure s).2 pos }

/-- `iter_corner_text`: iterate the six templates in order, skip a template
whose raw string strips to empty, substitute the metadata through the
`defaultdict` view, and yield one placed `Text` per remaining position. -/
def iterCornerText (res_x res_y font_size margin : ℤ) (measure : String → ℚ × ℚ)
    (ts : TemplateSet) (d : MetaDict) : List Text :=
  CornerPos.all.filterMap fun pos =>
    if Template.blank (ts.get pos) then none
    else some (mkText res_x res_y font_size margin measure (formatMapDD d (ts.get pos)) pos)

theorem map_filterMap_if {α β : Type} (l : List α) (c : α → Bool) (f : α → β) (g : β → α)
    (hg : ∀ a : α, g (f a) = a) :
    (l.filterMap fun a => if c a then none else some (f a)).map g
      = l.filter fun a => !(c a) := by
  induction l with
  | nil => rfl
  | cons x xs ih =>
      cases hc : c x with
      | true => simp [List.filterMap_cons, hc, List.filter_cons, ih]
      | false => simp [List.filterMap_cons, hc, List.filter_cons, ih, hg]

/-- Overlap of two rectangles with positive-area intersection. -/
def rectsOverlap (r1 r2 : Rect) : Prop :=
  r1.x < r2.x + r2.width ∧ r2.x < r1.x + r1.width ∧
  r1.y < r2.y + r2.height ∧ r2.y < r1.y + r1.height

/-- A constant `blf.dimensions` stand-in for concrete evaluations. -/
def sampleMeasure : String → ℚ × ℚ := fun _ => (80, 10)

/-- Concrete template set: five literal templates plus one placeholder-only
template that resolves to the empty string when the scene has no camera. -/
def cexTemplates : TemplateSet :=
  { top_left := [TItem.lit "A"],
    top_center := [TItem.lit "B"],
    top_right := [TItem.lit "C"],
    bottom_left := [TItem.field "camera_name"],
    bottom_center := [TItem.lit "D"],
    bottom_right := [TItem.lit "E"] }

/-- `sampleState` without a camera: `camera_name` resolves to `""`. -/
def camlessState : SceneState := { sampleState with camera := none }

/-- `cexTemplates` with a `nonexistent` placeholder in the top left. -/
def unknownTemplates : TemplateSet :=
  { cexTemplates with top_left := [TItem.field "nonexistent"] }

/-- C6 (amended): a position is skipped exactly when its raw template strips
to empty (a template that merely resolves to empty still yields a block),
the blocks come one per non-blank position in fixed order, and six non-blank
templates yield exactly six blocks; the blocks need not be disjoint. -/
theorem C6_blank_skip_amended (res_x res_y font_size margin : ℤ)
    (measure : String → ℚ × ℚ) (ts : TemplateSet) (d : MetaDict) :
    (iterCornerText res_x res_y font_size margin measure ts d).map Text.position
        = CornerPos.all.filter (fun p => !(Template.blank (ts.get p))) ∧
    ((∀ p : CornerPos, Template.blank (ts.get p) = false) →
      (iterCornerText res_x res_y font_size margin measure ts d).length = 6) := by
  have h1 : (iterCornerText res_x res_y font_size margin measure ts d).map Text.position
      = CornerPos.all.filter (fun p => !(Template.blank (ts.get p))) :=
    map_filterMap_if CornerPos.all _ _ Text.position (fun pos => rfl)
  refine ⟨h1, fun hall => ?_⟩
  have h2 := congrArg List.length h1
  rw [List.length_map] at h2
  rw [h2, List.filter_eq_self.mpr]
  · rfl
  · intro p hp
    rw [hall p]
    rfl

/-- C6 witness: six concretely non-blank templates produce six blocks. -/
theorem C6_blank_skip_witness :
    (∀ p : CornerPos, Template.blank (cexTemplates.get p) = false) ∧
    (iterCornerText 100 100 12 0 sampleMeasure cexTemplates
        (getMetadata camlessState false)).length = 6 :=
  ⟨by intro p; cases p <;> rfl,
    (C6_blank_skip_amended 100 100 12 0 sampleMeasure cexTemplates
        (getMetadata camlessState false)).2 (by intro p; cases p <;> rfl)⟩

/-- C6 counterexample: with no camera, the `bottom_left` template
`\x7bcamera_name\x7d` resolves to the empty string yet still yields a block
(the skip test inspects the raw template, not the resolved text), and with a
wide measured text the `top_left` and `top_right` blocks overlap, refuting
the claimed non-overlap. -/
theorem C6_blank_skip_counterexample :
    (iterCornerText 100 100 12 0 sampleMeasure cexTemplates
          (getMetadata camlessState false)).map (fun b => (b.position, b.text))
        = [(CornerPos.top_left, "A"), (CornerPos.top_center, "B"), (CornerPos.top_right, "C"),
           (CornerPos.bottom_left, ""), (CornerPos.bottom_center, "D"),
           (CornerPos.bottom_right, "E")] ∧
    pyblank "" = true ∧
    ((iterCornerText 100 100 12 0 sampleMeasure cexTemplates
          (getMetadata camlessState false)).get? 0).map Text.rect
        = some ⟨0, 90, 80, 10⟩ ∧
    ((iterCornerText 100 100 12 0 sampleMeasure cexTemplates
          (getMetadata camlessState false)).get? 2).map Text.rect
        = some ⟨20, 90, 80, 10⟩ ∧
    rectsOverlap ⟨0, 90, 80, 10⟩ ⟨20, 90, 80, 10⟩ := by
  refine ⟨by rfl, by rfl, ?_, ?_, ?_⟩
  · have e0 : (iterCornerText 100 100 12 0 sampleMeasure cexTemplates
        (getMetadata camlessState false)).get? 0
        = some (mkText 100 100 12 0 sampleMeasure "A" CornerPos.top_left) := rfl
    rw [e0]
    simp only [Option.map_some, mkText, textPlace, sampleMeasure, Option.some.injEq]
    norm_num
  · have e2 : (iterCornerText 100 100 12 0 sampleMeasure cexTemplates
        (getMetadata camlessState false)).get? 2
        = some (mkText 100 100 12 0 sampleMeasure "C" CornerPos.top_right) := rfl
    rw [e2]
    simp only [Option.map_some, mkText, textPlace, sampleMeasure, Option.some.injEq]
    norm_num
  · rw [rectsOverlap]
    norm_num

/-- C5 (amended): substitution over the metadata snapshot never raises (the
`defaultdict` makes every lookup succeed), an unknown field expands to the
empty string, and a position whose template references an unknown field is
NOT omitted: as long as its raw template is non-blank it yields a block
carrying the substituted text. -/
theorem C5_unknown_field_amended (res_x res_y font_size margin : ℤ)
    (measure : String → ℚ × ℚ) (ts : TemplateSet) (d : MetaDict) (pos : CornerPos) :
    formatMapP (fun n => some (ddGet d n)) (ts.get pos)
        = Except.ok (formatMapDD d (ts.get pos)) ∧
    (∀ n : String, d.lookup n = none → formatMapDD d [TItem.field n] = "") ∧
    (Template.blank (ts.get pos) = false →
      ∃ b ∈ iterCornerText res_x res_y font_size margin measure ts d,
        b.position = pos ∧ b.text = formatMapDD d (ts.get pos)) := by
  refine ⟨formatMapP_dd_ok d (ts.get pos), fun n hn => ?_, fun hb => ?_⟩
  · rw [formatMapDD, formatMapDD, ddGet, hn]
    rfl
  · refine ⟨mkText res_x res_y font_size margin measure (formatMapDD d (ts.get pos)) pos,
      List.mem_filterMap.mpr ⟨pos, ?_, ?_⟩, rfl, rfl⟩
    · cases pos <;> simp [CornerPos.all]
    · rw [hb]
      rfl

/-- C5 witness: the unknown field `nonexistent` at a concrete template set
and snapshot. -/
theorem C5_unknown_field_witness :
    (getMetadata sampleState false).lookup "nonexistent" = none ∧
    formatMapDD (getMetadata sampleState false) [TItem.field "nonexistent"] = "" ∧
    Template.blank (unknownTemplates.get CornerPos.top_left) = false ∧
    (∃ b ∈ iterCornerText 100 100 12 0 sampleMeasure unknownTemplates
        (getMetadata sampleState false),
      b.position = CornerPos.top_left ∧
      b.text = formatMapDD (getMetadata sampleState false)
        (unknownTemplates.get CornerPos.top_left)) :=
  ⟨by rfl,
    (C5_unknown_field_amended 100 100 12 0 sampleMeasure unknownTemplates
        (getMetadata sampleState false) CornerPos.top_left).2.1 "nonexistent" (by rfl),
    by rfl,
    (C5_unknown_field_amended 100 100 12 0 sampleMeasure unknownTemplates
        (getMetadata sampleState false) CornerPos.top_left).2.2 (by rfl)⟩

/-- C5 counterexample: a `\x7bnonexistent\x7d` top-left template does not
make the top-left position disappear from the layout; the position is kept
with the placeholder expanded to the empty string, so the claim's "that
position is omitted from the result" is false. -/
theorem C5_unknown_field_counterexample :
    (iterCornerText 100 100 12 0 sampleMeasure unknownTemplates
          (getMetadata sampleState false)).map (fun b => (b.position, b.text))
        = [(CornerPos.top_left, ""), (CornerPos.top_center, "B"), (CornerPos.top_right, "C"),
           (CornerPos.bottom_left, "Camera"), (CornerPos.bottom_center, "D"),
           (CornerPos.bottom_right, "E")] := by
  rfl

/-- The data substituted into one ASS `Dialogue:` line by
`build_subtitles`. -/
structure Dialogue where
  startTime : ℚ
  stopTime : ℚ
  align : String
  x : ℤ
  y : ℤ
  text : String
deriving DecidableEq

/-- The instant denoted by `frame_to_timecode(frame, fps)`, in seconds:
`frame / fps`, minus one centisecond for every frame other than frame 0.
The H:MM:SS.cs decomposition and its centisecond string formatting are
value-preserving and not modelled. -/
def tcVal (frame fps : ℤ) : ℚ :=
  (frame : ℚ) / (fps : ℚ) - (if frame ≠ 0 then 1 / 100 else 0)

/-- One dialogue line of `build_subtitles` for a given frame and position:
substitution through the stored per-frame metadata either succeeds,
yielding the line with the position's fixed alignment code, top-left-origin
anchor and the frame's timecode pair, or fails - and then the `except`
branch's `self.report` call (`operators.py` line 319), which passes a
single argument to an API requiring two, itself raises `TypeError`. -/
def lineFor (fstart fps res_x res_y margin : ℤ) (ts : TemplateSet)
    (lkf : String → Option String) (f : ℤ) (pos : CornerPos) : Except String Dialogue :=
  match formatMapP lkf (ts.get pos) with
  | Except.ok s =>
      Except.ok { startTime := tcVal (f - fstart) fps, stopTime := tcVal (f - fstart + 1) fps,
                  align := (subtitleVars res_x res_y margin pos).1,
                  x := (subtitleVars res_x res_y margin pos).2.1,
                  y := (subtitleVars res_x res_y margin pos).2.2,
                  text := s }
  | Except.error e => Except.error e

/-- The inner position loop of `build_subtitles`: lines accumulate in
order; the first failure propagates out of the loop. -/
def buildFramePos (mk : CornerPos → Except String Dialogue) :
    List CornerPos → Except String (List Dialogue)
  | [] => Except.ok []
  | p :: rest =>
      match mk p with
      | Except.ok d => (buildFramePos mk rest).map fun ds => d :: ds
      | Except.error e => Except.error e

/-- The outer frame loop of `build_subtitles`. -/
def buildFrames (g : ℤ → Except String (List Dialogue)) :
    List ℤ → Except String (List Dialogue)
  | [] => Except.ok []
  | f :: rest =>
      match g f with
      | Except.ok ds => (buildFrames g rest).map fun rs => ds ++ rs
      | Except.error e => Except.error e

/-- `build_subtitles` dialogue generation: for each frame of `fstart..fend`
and each of the six positions in order, substitute the position's template
through the stored per-frame metadata (`lk f`) and emit one dialogue line
with the position's fixed alignment code and top-left-origin anchor,
spanning the timecodes of the frame and its successor; the anchor margin is
`margin0 * scale // 100`.  A failing substitution aborts the whole build:
the `except` handler's mis-called `self.report` raises `TypeError`, which
propagates out of `build_subtitles`, so no subtitle lines are produced. -/
def buildSubtitles (fstart fend fps res_x res_y margin0 scale : ℤ)
    (ts : TemplateSet) (lk : ℤ → String → Option String) :
    Except String (List Dialogue) :=
  buildFrames
    (fun f => buildFramePos
      (lineFor fstart fps res_x res_y (pyidiv (margin0 * scale) 100) ts (lk f) f)
      CornerPos.all)
    (frameRange fstart fend)

theorem buildFramePos_ok (mk : CornerPos → Except String Dialogue) (l : List CornerPos)
    (h : ∀ p ∈ l, ∃ d, mk p = Except.ok d) :
    ∃ ds, buildFramePos mk l = Except.ok ds ∧ ds.length = l.length ∧
      ∀ d ∈ ds, ∃ p ∈ l, mk p = Except.ok d := by
  induction l with
  | nil => exact ⟨[], rfl, rfl, by simp⟩
  | cons p rest ih =>
      obtain ⟨d, hd⟩ := h p (List.mem_cons_self p rest)
      obtain ⟨ds, hds, hlen, hmem⟩ := ih fun q hq => h q (List.mem_cons_of_mem p hq)
      refine ⟨d :: ds, ?_, by simp [hlen], ?_⟩
      · rw [buildFramePos, hd, hds]
        rfl
      · intro x hx
        rcases List.mem_cons.mp hx with rfl | hx2
        · exact ⟨p, List.mem_cons_self p rest, hd⟩
        · obtain ⟨q, hq, hmk⟩ := hmem x hx2
          exact ⟨q, List.mem_cons_of_mem p hq, hmk⟩

theorem buildFramePos_error (mk : CornerPos → Except String Dialogue) (l : List CornerPos)
    (h : ∃ p ∈ l, ∃ e, mk p = Except.error e) :
    ∃ e, buildFramePos mk l = Except.error e := by
  induction l with
  | nil => simp at h
  | cons p rest ih =>
      obtain ⟨q, hq, e, he⟩ := h
      rcases List.mem_cons.mp hq with rfl | hq2
      · exact ⟨e, by rw [buildFramePos, he]⟩
      · cases hm : mk p with
        | error e2 => exact ⟨e2, by rw [buildFramePos, hm]⟩
        | ok d =>
            obtain ⟨e3, he3⟩ := ih ⟨q, hq2, e, he⟩
            exact ⟨e3, by rw [buildFramePos, hm, he3]; rfl⟩

theorem buildFrames_ok (g : ℤ → Except String (List Dialogue)) (l : List ℤ) (n : ℕ)
    (Q : ℤ → Dialogue → Prop)
    (h : ∀ f ∈ l, ∃ ds, g f = Except.ok ds ∧ ds.length = n ∧ ∀ d ∈ ds, Q f d) :
    ∃ L, buildFrames g l = Except.ok L ∧ L.length = n * l.length ∧
      ∀ d ∈ L, ∃ f ∈ l, Q f d := by
  induction l with
  | nil => exact ⟨[], rfl, by simp, by simp⟩
  | cons f rest ih =>
      obtain ⟨ds, hds, hlen, hQ⟩ := h f (List.mem_cons_self f rest)
      obtain ⟨L, hL, hLlen, hLQ⟩ := ih fun f2 hf2 => h f2 (List.mem_cons_of_mem f hf2)
      refine ⟨ds ++ L, ?_, ?_, ?_⟩
      · rw [buildFrames, hds, hL]
        rfl
      · rw [List.length_append, hlen, hLlen, List.length_cons]
        ring
      · intro d hd
        rcases List.mem_append.mp hd with hd1 | hd2
        · exact ⟨f, List.mem_cons_self f rest, hQ d hd1⟩
        · obtain ⟨f2, hf2, hQ2⟩ := hLQ d hd2
          exact ⟨f2, List.mem_cons_of_mem f hf2, hQ2⟩

theorem buildFrames_error (g : ℤ → Except String (List Dialogue)) (l : List ℤ)
    (h : ∃ f ∈ l, ∃ e, g f = Except.error e) :
    ∃ e, buildFrames g l = Except.error e := by
  induction l with
  | nil => simp at h
  | cons f rest ih =>
      obtain ⟨f2, hf2, e, he⟩ := h
      rcases List.mem_cons.mp hf2 with rfl | hf3
      · exact ⟨e, by rw [buildFrames, he]⟩
      · cases hg : g f with
        | error e2 => exact ⟨e2, by rw [buildFrames, hg]⟩
        | ok ds =>
            obtain ⟨e3, he3⟩ := ih ⟨f2, hf3, e, he⟩
            exact ⟨e3, by rw [buildFrames, hg, he3]; rfl⟩

/-- C9 (amended): when every substitution succeeds the exporter emits
exactly one dialogue line per frame per position - including positions with
an empty template, which are not skipped - each carrying one of the six
fixed alignment codes with the matching top-left-origin anchor from the
`vars` table and spanning exactly one frame duration, except for the first
frame, whose span is one frame duration minus one centisecond; when any
substitution fails, the mis-called `self.report` in the `except` handler
raises and the whole subtitle build aborts, emitting no lines at all. -/
theorem C9_subtitle_lines_amended (fstart fend fps res_x res_y margin0 scale : ℤ)
    (ts : TemplateSet) (lk : ℤ → String → Option String) (hf : fstart ≤ fend) :
    ((∀ (f : ℤ) (pos : CornerPos), ∃ s, formatMapP (lk f) (ts.get pos) = Except.ok s) →
      ∃ L : List Dialogue,
        buildSubtitles fstart fend fps res_x res_y margin0 scale ts lk = Except.ok L ∧
        L.length = 6 * (fend + 1 - fstart).toNat ∧
        ∀ d ∈ L,
          (∃ pos : CornerPos,
            d.align = (subtitleVars res_x res_y (pyidiv (margin0 * scale) 100) pos).1 ∧
            d.x = (subtitleVars res_x res_y (pyidiv (margin0 * scale) 100) pos).2.1 ∧
            d.y = (subtitleVars res_x res_y (pyidiv (margin0 * scale) 100) pos).2.2) ∧
          d.align ∈ (["7", "8", "9", "1", "2", "3"] : List String) ∧
          (d.stopTime - d.startTime = 1 / (fps : ℚ) ∨
            (d.startTime = 0 ∧ d.stopTime = 1 / (fps : ℚ) - 1 / 100))) ∧
    ((∃ f ∈ frameRange fstart fend, ∃ (pos : CornerPos) (e : String),
        formatMapP (lk f) (ts.get pos) = Except.error e) →
      ∃ e, buildSubtitles fstart fend fps res_x res_y margin0 scale ts lk
        = Except.error e) := by
  constructor
  · intro hok
    have hframe : ∀ f ∈ frameRange fstart fend,
        ∃ ds, buildFramePos (lineFor fstart fps res_x res_y
            (pyidiv (margin0 * scale) 100) ts (lk f) f) CornerPos.all = Except.ok ds ∧
          ds.length = 6 ∧
          ∀ d ∈ ds, ∃ p ∈ CornerPos.all, lineFor fstart fps res_x res_y
            (pyidiv (margin0 * scale) 100) ts (lk f) f p = Except.ok d := by
      intro f hfmem
      exact buildFramePos_ok _ CornerPos.all fun p hp => by
        obtain ⟨s, hs⟩ := hok f p
        exact ⟨_, by rw [lineFor, hs]⟩
    obtain ⟨L, hL, hlen, hmem⟩ := buildFrames_ok _ (frameRange fstart fend) 6
      (fun f d => ∃ p ∈ CornerPos.all, lineFor fstart fps res_x res_y
          (pyidiv (margin0 * scale) 100) ts (lk f) f p = Except.ok d) hframe
    refine ⟨L, hL, ?_, ?_⟩
    · rw [hlen, frameRange, List.length_map, List.length_range]
    · intro d hd
      obtain ⟨f, hfmem, p, hp, hline⟩ := hmem d hd
      have hge : fstart ≤ f := by
        rw [frameRange] at hfmem
        simp only [List.mem_map, List.mem_range] at hfmem
        obtain ⟨i, hi, rfl⟩ := hfmem
        omega
      cases hfm : formatMapP (lk f) (ts.get p) with
      | error e =>
          rw [lineFor, hfm] at hline
          exact absurd hline (by simp)
      | ok s =>
          rw [lineFor, hfm] at hline
          obtain rfl := Except.ok.inj hline
          refine ⟨⟨p, rfl, rfl, rfl⟩, by cases p <;> simp [subtitleVars], ?_⟩
          by_cases h0 : f - fstart = 0
          · right
            constructor
            · simp [tcVal, h0]
            · rw [show f - fstart + 1 = 1 by omega]
              simp [tcVal]
          · left
            have h1 : f - fstart + 1 ≠ 0 := by omega
            simp only [tcVal, if_pos h0, if_pos h1]
            have hc : ((f - fstart + 1 : ℤ) : ℚ) = ((f - fstart : ℤ) : ℚ) + 1 := by
              push_cast
              ring
            rw [hc, add_div]
            ring
  · intro hbad
    obtain ⟨f, hfmem, pos, e, he⟩ := hbad
    apply buildFrames_error
    refine ⟨f, hfmem, ?_⟩
    apply buildFramePos_error
    refine ⟨pos, by cases pos <;> simp [CornerPos.all], e, ?_⟩
    rw [lineFor, he]

/-- The all-empty template set: every position's template is the empty
string. -/
def emptyTemplates : TemplateSet :=
  { top_left := [], top_center := [], top_right := [],
    bottom_left := [], bottom_center := [], bottom_right := [] }

/-- C9 counterexample: with all six templates empty, a two-frame export
still emits 12 dialogue lines (the exporter has no empty-template skip),
and the first frame's start/end pair spans one centisecond less than one
frame duration. -/
theorem C9_subtitle_lines_counterexample :
    (buildSubtitles 1 2 24 1920 1080 10 50 emptyTemplates (fun _ _ => none)).map List.length
      = Except.ok 12 ∧
    (buildSubtitles 1 2 24 1920 1080 10 50 emptyTemplates (fun _ _ => none)).map
        (fun L => (L.get? 0).map fun d => (d.startTime, d.stopTime))
      = Except.ok (some (0, 1 / 24 - 1 / 100)) ∧
    ¬ ((1 : ℚ) / 24 - 1 / 100 - 0 = 1 / 24) := by
  refine ⟨by rfl, ?_, by norm_num⟩
  have e0 : (buildSubtitles 1 2 24 1920 1080 10 50 emptyTemplates (fun _ _ => none)).map
      (fun L => (L.get? 0).map fun d => (d.startTime, d.stopTime))
      = Except.ok (some (tcVal (1 - 1) 24, tcVal (1 - 1 + 1) 24)) := rfl
  have h1 : tcVal (1 - 1) 24 = 0 := by norm_num [tcVal]
  have h2 : tcVal (1 - 1 + 1) 24 = 1 / 24 - 1 / 100 := by norm_num [tcVal]
  rw [e0, h1, h2]

/-- C9 witness: the amended theorem's success clause at a concrete
two-frame export where every substitution succeeds. -/
theorem C9_subtitle_lines_witness :
    (1 : ℤ) ≤ 2 ∧
    ∃ L, buildSubtitles 1 2 24 1920 1080 10 50 emptyTemplates (fun _ _ => none)
        = Except.ok L ∧
      L.length = 6 * ((2 : ℤ) + 1 - 1).toNat := by
  refine ⟨by norm_num, ?_⟩
  obtain ⟨L, hL, hlen, hmem⟩ := (C9_subtitle_lines_amended 1 2 24 1920 1080 10 50
      emptyTemplates (fun _ _ => none) (by norm_num)).1
      (fun f pos => ⟨"", by cases pos <;> rfl⟩)
  exact ⟨L, hL, hlen⟩

end Playblast
